import Mathlib

/-!
Verification of the Supabase extraction engine (`src/extractor.ts`, converged
version of the `SupabaseExtractor` class) against its design specification.

The embedding is shallow: JavaScript runtime values become the inductive
`JsValue`; the class methods become pure Lean functions; the external
collaborators (the restricted Supabase data API and the privileged `pg`
connection) become explicit behaviour parameters; fallible async methods
return `Except`.
-/

/-! ### Characters used in generated SQL -/

/-- The single-quote character `'` (code 39). -/
def sqC : Char := Char.ofNat 39

/-- The double-quote character (code 34). -/
def dqC : Char := Char.ofNat 34

/-- The one-character string holding a single quote. -/
def sqS : String := String.mk [sqC]

/-! ### Escaping helpers

`escSQL` models `value.replace(/'/g, "''")` (extractor.ts line 747): every
single quote is doubled.  `escDQL` models `identifier.replace(/"/g, '""')`
(line 801).  Both are written on the character list for easy induction. -/

/-- Double every single quote in a character list. -/
def escSQL : List Char → List Char
  | [] => []
  | c :: cs => (if c = sqC then [sqC, sqC] else [c]) ++ escSQL cs

/-- Double every single quote in a string (`s.replace(/'/g, "''")`). -/
def escSQ (s : String) : String := String.mk (escSQL s.data)

/-- Double every double quote in a character list. -/
def escDQL : List Char → List Char
  | [] => []
  | c :: cs => (if c = dqC then [dqC, dqC] else [c]) ++ escDQL cs

/-- `SupabaseExtractor.quoteIdentifier` (extractor.ts lines 799-802):
wrap in double quotes, doubling any embedded double quote. -/
def quoteIdentifier (identifier : String) : String :=
  String.mk (dqC :: (escDQL identifier.data ++ [dqC]))

/-! ### JavaScript runtime values

`JsValue` covers every kind of value `formatValue` dispatches on.  A finite
JavaScript number is represented by its canonical decimal rendering
(`Number.prototype.toString`); the non-finite numbers get their own
constructors because `Number.isFinite` singles them out.  A `Date` carries
its `toISOString()` text.  `exotic` stands for the remaining `typeof`
kinds (symbol, bigint, function), carrying their `String(value)` rendering. -/

/-- A JavaScript number, by finiteness and (for finite ones) decimal text. -/
inductive JsNumber where
  | nan
  | posInf
  | negInf
  | finite (text : String)
deriving DecidableEq

/-- A JavaScript runtime value as seen by `formatValue`. -/
inductive JsValue where
  | vnull
  | vundefined
  | str (s : String)
  | boolean (b : Bool)
  | num (n : JsNumber)
  | date (iso : String)
  | obj (fields : List (String × JsValue))
  | arr (elems : List JsValue)
  | exotic (text : String)

/-! ### `String(value)` and `JSON.stringify(value)`

The array branch of `formatValue` stringifies each element with `String(item)`
and the object branch serialises the whole value with `JSON.stringify`.
`jsToString` approximates `String(v)`: for a `Date` we conflate the locale
rendering with the ISO text, and array rendering joins elements with a comma
(`Array.prototype.toString`); no claim exercises those corners.
`jsonStringify` returns `none` exactly where `JSON.stringify` yields
`undefined` (top-level function/symbol); cyclic structures cannot arise in
an inductive value, so the `catch` branch of the source is unreachable here. -/

mutual
/-- JavaScript `String(v)` conversion (approximate; see section comment). -/
def jsToString : JsValue → String
  | .vnull => "null"
  | .vundefined => "undefined"
  | .str s => s
  | .boolean b => if b then "true" else "false"
  | .num .nan => "NaN"
  | .num .posInf => "Infinity"
  | .num .negInf => "-Infinity"
  | .num (.finite t) => t
  | .date iso => iso
  | .obj _ => "[object Object]"
  | .arr xs => String.intercalate "," (jsToStringList xs)
  | .exotic t => t

/-- `String` conversion of each element of a list. -/
def jsToStringList : List JsValue → List String
  | [] => []
  | x :: xs => jsToString x :: jsToStringList xs
end

/-- Escape a character for a JSON string body (quote and backslash only;
control-character escapes are not needed by any claim). -/
def jsonEscapeChar (c : Char) : List Char :=
  if c = dqC then ['\\', dqC] else if c = '\\' then ['\\', '\\'] else [c]

/-- Escape every character of a list for a JSON string body. -/
def jsonEscapeL : List Char → List Char
  | [] => []
  | c :: cs => jsonEscapeChar c ++ jsonEscapeL cs

/-- Render a JSON string literal with surrounding double quotes. -/
def jsonQuote (s : String) : String :=
  String.mk (dqC :: (jsonEscapeL s.data ++ [dqC]))

mutual
/-- `JSON.stringify(v)`; `none` where JavaScript yields `undefined`. -/
def jsonStringify : JsValue → Option String
  | .vundefined => none
  | .vnull => some "null"
  | .str s => some (jsonQuote s)
  | .boolean b => some (if b then "true" else "false")
  | .num (.finite t) => some t
  | .num _ => some "null"
  | .date iso => some (jsonQuote iso)
  | .arr xs => some ("[" ++ String.intercalate "," (jsonStringifyArr xs) ++ "]")
  | .obj fs => some ("\x7b" ++ String.intercalate "," (jsonStringifyObj fs) ++ "\x7d")
  | .exotic _ => none

/-- Array members: an `undefined` member renders as `null`. -/
def jsonStringifyArr : List JsValue → List String
  | [] => []
  | x :: xs => (jsonStringify x).getD "null" :: jsonStringifyArr xs

/-- Object members: a member whose value stringifies to `undefined` is omitted. -/
def jsonStringifyObj : List (String × JsValue) → List String
  | [] => []
  | (k, v) :: fs =>
    (match jsonStringify v with
     | some vs => [jsonQuote k ++ ":" ++ vs]
     | none => []) ++ jsonStringifyObj fs
end

/-! ### The column-type map and `formatValue` -/

/-- The per-run `columnTypes` cache: table name to column name to declared
data type (`Map<string, Map<string, string>>` in the class). -/
def ColumnTypes := List (String × List (String × String))

/-- JavaScript `s.endsWith(t)`. -/
def strEndsWith (s t : String) : Bool := List.isSuffixOf t.data s.data

/-- The guarded lookup
`tableName && columnName && this.columnTypes.get(tableName)?.get(columnName)`
(extractor.ts lines 768-769).  A missing or empty (falsy) table or column
name short-circuits to no type. -/
def lookupColumnType (cts : ColumnTypes) (tableName columnName : Option String) :
    Option String :=
  match tableName, columnName with
  | some tn, some cn =>
    if tn.isEmpty ∨ cn.isEmpty then none
    else match List.lookup tn cts with
      | some m => List.lookup cn m
      | none => none
  | _, _ => none

/-- Render `'<json>'::jsonb` from a serialised value, or `NULL` when
serialisation yielded `undefined` (in the source the subsequent `.replace`
on `undefined` throws and the `catch` returns `NULL`). -/
def jsonbRender (v : JsValue) : String :=
  match jsonStringify v with
  | some j => sqS ++ escSQ j ++ (sqS ++ "::jsonb")
  | none => "NULL"

/-- `SupabaseExtractor.formatValue` (extractor.ts lines 740-794): ordered
dispatch on the runtime kind of `value`, with the optional table/column
hints consulted only in the `typeof value === "object"` branch to detect
array-typed columns.  `Array.isArray` is false for plain objects, so the
array-literal branch can fire only on `.arr` values. -/
def formatValue (cts : ColumnTypes) (value : JsValue)
    (tableName columnName : Option String) : String :=
  match value with
  | .vnull => "NULL"
  | .vundefined => "NULL"
  | .str s => sqS ++ (escSQ s ++ sqS)
  | .boolean b => if b then "TRUE" else "FALSE"
  | .num .nan => "NULL"
  | .num .posInf => "NULL"
  | .num .negInf => "NULL"
  | .num (.finite t) => t
  | .date iso => sqS ++ (iso ++ sqS)
  | .obj fs => jsonbRender (.obj fs)
  | .arr xs =>
    match lookupColumnType cts tableName columnName with
    | some ct =>
      if strEndsWith ct "[]" then
        "ARRAY[" ++
          (String.intercalate ","
            (jsToStringList xs |>.map (fun item => sqS ++ (escSQ item ++ sqS))) ++
           ("]::" ++ ct))
      else jsonbRender (.arr xs)
    | none => jsonbRender (.arr xs)
  | .exotic t => sqS ++ (escSQ t ++ sqS)

/-! ### Standard SQL single-quoted literal parsing (for the round-trip claim) -/

/-- Scan the part of a single-quoted SQL literal after the opening quote:
`''` yields one quote and continues, a lone quote at the end closes the
literal, a lone quote followed by anything is a parse failure (trailing
text), any other character is taken verbatim. -/
def sqlLiteralBody : List Char → Option (List Char)
  | [] => none
  | c :: rest =>
    if c = sqC then
      match rest with
      | [] => some []
      | d :: rest2 =>
        if d = sqC then (sqlLiteralBody rest2).map (fun tl => sqC :: tl)
        else none
    else
      (sqlLiteralBody rest).map (fun tl => c :: tl)

/-- Parse a complete standard single-quoted SQL string literal. -/
def sqlParseLiteral (s : String) : Option String :=
  match s.data with
  | c :: rest => if c = sqC then (sqlLiteralBody rest).map String.mk else none
  | [] => none

/-! ### Table discovery -/

/-- `TableInfo` (extractor.ts lines 379-382). -/
structure TableInfo where
  name : String
  schema : String
deriving DecidableEq

/-- `SupabaseExtractorConfig` (lines 384-389); `verbose` only drives logging
and is omitted. -/
structure ExtractorConfig where
  supabaseUrl : String
  supabaseKey : String
  databaseUrl : Option String
deriving DecidableEq

/-- The JavaScript truthiness test `if (this.config.databaseUrl)` (line 405):
an absent or empty connection string is falsy. -/
def hasDatabaseUrl (cfg : ExtractorConfig) : Bool :=
  match cfg.databaseUrl with
  | some s => !s.isEmpty
  | none => false

/-- Behaviour of one scoped privileged (`pg`) connection use: connecting can
fail, the query can fail, or the query yields catalog rows
`(table_name, table_schema)`. -/
inductive PgOutcome where
  | connectFailure (e : String)
  | queryFailure (e : String)
  | success (rows : List (String × String))
deriving DecidableEq

/-- One row returned by the `get_all_tables` remote procedure; `table_schema`
may be absent. -/
structure RpcRow where
  table_name : String
  table_schema : Option String
deriving DecidableEq

/-- Behaviour of the `get_all_tables` RPC call through the restricted API:
either the call throws, or it settles with `data` and `error` fields. -/
inductive RpcOutcome where
  | throws
  | result (data : Option (List RpcRow)) (error : Option String)
deriving DecidableEq

/-- JavaScript `x || dflt` for an optional string: absent or empty is falsy. -/
def jsOrDefault (x : Option String) (dflt : String) : String :=
  match x with
  | some s => if s.isEmpty then dflt else s
  | none => dflt

/-- `SupabaseExtractor.discoverTablesViaPg` (lines 415-438): the `finally`
clause releases the connection but does not swallow errors, so a connect or
query failure propagates as an exception (`Except.error`). -/
def discoverTablesViaPg (pg : PgOutcome) : Except String (List TableInfo) :=
  match pg with
  | .connectFailure e => .error e
  | .queryFailure e => .error e
  | .success rows => .ok (rows.map fun r => { name := r.1, schema := r.2 })

/-- `SupabaseExtractor.discoverTablesViaSupabase` (lines 444-469): a thrown
RPC is caught, and the rows are used only when `error` is falsy and `data`
truthy (any array, even empty, is truthy); every failure path returns `[]`. -/
def discoverTablesViaSupabase (rpc : RpcOutcome) : List TableInfo :=
  match rpc with
  | .throws => []
  | .result data error =>
    match error, data with
    | none, some rows =>
      rows.map fun r => { name := r.table_name, schema := jsOrDefault r.table_schema "public" }
    | _, _ => []

/-- `SupabaseExtractor.discoverTables` (lines 404-410): the privileged path
when a database URL is configured (truthy), else the restricted fallback. -/
def discoverTables (cfg : ExtractorConfig) (pg : PgOutcome) (rpc : RpcOutcome) :
    Except String (List TableInfo) :=
  if hasDatabaseUrl cfg then discoverTablesViaPg pg
  else .ok (discoverTablesViaSupabase rpc)

/-! ### Paginated row extraction

`extractTableData` (lines 539-592) fetches the half-open window
`[offset, offset + 1000)` with `.range(offset, offset + limit - 1)` until a
page comes back shorter than the page size.  The claims assume the table is
served consistently, so the restricted API is modelled as the window function
`serveRange rows` over one fixed row sequence `rows`.  The result pairs the
accumulated rows with the number of page requests issued. -/

/-- The page size (`const limit = 1000`, line 542). -/
def pageSize : Nat := 1000

/-- The restricted API serving `.range(offset, offset + limit - 1)` of a
fixed row sequence. -/
def serveRange (rows : List α) (offset limit : Nat) : List α :=
  (rows.drop offset).take limit

/-- The pagination loop of `extractTableData`: request the page at `offset`;
a full page is accumulated and the loop continues at `offset + pageSize`; a
short page (empty included) is accumulated and the loop stops.  Returns the
accumulated rows and the number of requests issued. -/
def extractLoop (rows : List α) (offset : Nat) : List α × Nat :=
  let page := serveRange rows offset pageSize
  if h : page.length = pageSize then
    let rest := extractLoop rows (offset + pageSize)
    (page ++ rest.1, rest.2 + 1)
  else
    (page, 1)
termination_by rows.length - offset
decreasing_by
  unfold page at h
  simp only [serveRange, List.length_take, List.length_drop, pageSize] at h
  simp only [pageSize]
  have hge : 1000 ≤ rows.length - offset := by
    by_contra hlt
    push_neg at hlt
    rw [Nat.min_eq_right (Nat.le_of_lt hlt)] at h
    omega
  omega

/-- `SupabaseExtractor.extractTableData` on a consistently served table. -/
def extractTableData (rows : List α) : List α × Nat :=
  extractLoop rows 0

/-! ### The orchestrator `extractAllData`

Lines 521-534: one table at a time, recording the extracted rows under the
table's name, and recording `[]` for a table whose extraction threw.  The
returned JavaScript object is modelled as an association list in insertion
order (the claims assume distinct table names, under which `List.lookup`
agrees with object indexing).  The column-type prefetch (lines 509-519) only
fills the `columnTypes` cache and does not affect the returned mapping. -/

/-- One extracted row: an open mapping from column name to value, in key
insertion order (JavaScript object keys are unique). -/
def Row := List (String × JsValue)

/-- `SupabaseExtractor.extractAllData`, with the per-table extraction
behaviour abstracted as `fetch`. -/
def extractAllData (fetch : String → Except String (List Row)) :
    List TableInfo → List (String × List Row)
  | [] => []
  | t :: ts =>
    (t.name, match fetch t.name with
             | .ok rows => rows
             | .error _ => []) :: extractAllData fetch ts

/-- `SupabaseExtractor.fetchColumnTypes` (lines 474-501): without a database
URL it returns an empty map; otherwise it builds the column-to-type map from
the catalog rows `(column_name, data_type)` of one privileged query. -/
def fetchColumnTypes (cfg : ExtractorConfig) (resultRows : List (String × String)) :
    List (String × String) :=
  if hasDatabaseUrl cfg then resultRows else []

/-! ### The INSERT generator

`generateInsertStatements` (lines 807-843) builds the document by successive
string appends.  Each appended piece is modelled as one chunk of a list, and
the document is the concatenation (`String.join`) of the chunks, which equals
the source's accumulated string; one INSERT statement (built by three
consecutive appends in the source) is kept as a single chunk. -/

/-- The `-- No data for table: <name>` comment emitted for an empty or
absent dataset (line 818). -/
def noDataLine (name : String) : String :=
  "-- No data for table: " ++ (name ++ "\n\n")

/-- The `DROP TABLE IF EXISTS <schema>.<table> CASCADE;` guard (line 823). -/
def dropLine (t : TableInfo) : String :=
  "DROP TABLE IF EXISTS " ++
    (quoteIdentifier t.schema ++ ("." ++ (quoteIdentifier t.name ++ " CASCADE;\n")))

/-- The `-- Table: <schema>.<table>` comment of drop mode (line 824). -/
def tableHeaderLine (t : TableInfo) : String :=
  "-- Table: " ++ (t.schema ++ ("." ++ (t.name ++ "\n")))

/-- The `-- Data for table: <name>` comment (line 827). -/
def dataCommentLine (name : String) : String :=
  "-- Data for table: " ++ (name ++ "\n")

/-- The `-- Rows: <n>` comment (line 828). -/
def rowsCommentLine (k : Nat) : String :=
  "-- Rows: " ++ (toString k ++ "\n\n")

/-- The fixed head of one table's INSERT statements (line 834). -/
def insertSig (t : TableInfo) : String :=
  "INSERT INTO " ++
    (quoteIdentifier t.schema ++ ("." ++ (quoteIdentifier t.name ++ " (")))

/-- One `INSERT INTO <schema>.<table> (<columns>) VALUES (<values>);`
statement for one row (lines 830-837): the column list comes from the row's
own keys and each value is formatted with the table/column hints. -/
def insertLine (cts : ColumnTypes) (t : TableInfo) (row : Row) : String :=
  insertSig t ++
    (String.intercalate ", " (row.map fun kv => quoteIdentifier kv.1) ++
     (") VALUES (" ++
      (String.intercalate ", "
        (row.map fun kv => formatValue cts kv.2 (some t.name) (some kv.1)) ++
       ");\n")))

/-- The chunks one table contributes to the document (the body of the
`for (const table of tables)` loop, lines 814-840). -/
def tableChunks (cts : ColumnTypes) (data : List (String × List Row))
    (includeDropStatements : Bool) (t : TableInfo) : List String :=
  match List.lookup t.name data with
  | none => [noDataLine t.name]
  | some rows =>
    if rows.isEmpty then [noDataLine t.name]
    else
      (if includeDropStatements then [dropLine t, tableHeaderLine t] else []) ++
      (dataCommentLine t.name :: rowsCommentLine rows.length ::
        (rows.map (insertLine cts t) ++ ["\n"]))

/-- All chunks of `generateInsertStatements`, in emission order. -/
def genInsertChunks (cts : ColumnTypes) (tables : List TableInfo)
    (data : List (String × List Row)) (includeDropStatements : Bool) : List String :=
  tables.flatMap (tableChunks cts data includeDropStatements)

/-- `SupabaseExtractor.generateInsertStatements` (lines 807-843); the third
parameter defaults to `false` exactly as in the source. -/
def generateInsertStatements (cts : ColumnTypes) (tables : List TableInfo)
    (data : List (String × List Row)) (includeDropStatements : Bool := false) : String :=
  String.join (genInsertChunks cts tables data includeDropStatements)

/-! ### The full reconstruction document

`generateReconstructionSQL` (lines 597-626).  The generation timestamp and —
in privileged mode — the schema DDL produced by `extractSchema` from catalog
query results are external inputs, passed in as strings.  The INSERT section
is produced by calling `generateInsertStatements` without its third argument,
so the `false` default applies. -/

/-- All chunks of `generateReconstructionSQL`, in emission order. -/
def reconChunks (cfg : ExtractorConfig) (timestamp schemaSQL : String)
    (cts : ColumnTypes) (tables : List TableInfo)
    (data : List (String × List Row)) : List String :=
  ["-- Database Reconstruction Script\n",
   "-- Generated: " ++ (timestamp ++ "\n\n"),
   "-- Note: The following session_replication_role commands require superuser privileges\n",
   "-- and have been commented out. Uncomment if you have appropriate permissions.\n",
   "-- SET session_replication_role = replica;\n\n"] ++
  (if hasDatabaseUrl cfg then [schemaSQL]
   else
     ["-- Note: Schema extraction requires DATABASE_URL to be set.\n",
      "-- Only data INSERT statements are included below.\n\n"]) ++
  genInsertChunks cts tables data false ++
  ["\n-- Re-enable triggers and constraints\n",
   "-- SET session_replication_role = DEFAULT;\n"]

/-- `SupabaseExtractor.generateReconstructionSQL` as the concatenation of
its chunks. -/
def generateReconstructionSQL (cfg : ExtractorConfig) (timestamp schemaSQL : String)
    (cts : ColumnTypes) (tables : List TableInfo)
    (data : List (String × List Row)) : String :=
  String.join (reconChunks cfg timestamp schemaSQL cts tables data)

/-- A string begins with another: the document-level rendering of "contains
the statement at a statement boundary". -/
def beginsWith (s p : String) : Prop := ∃ z, s.data = p.data ++ z

/-! ### General helper lemmas -/

theorem data_mk (l : List Char) : (String.mk l).data = l := rfl

theorem beginsWith_getElem {c p : String} (h : beginsWith c p) {n : Nat}
    (hn : n < p.data.length) : c.data[n]? = p.data[n]? := by
  obtain ⟨z, hz⟩ := h
  rw [hz, List.getElem?_append, if_pos hn]

theorem str_ne_of_idx {s t : String} (n : Nat) (h : s.data[n]? ≠ t.data[n]?) :
    s ≠ t := fun he => h (he ▸ rfl)

theorem lit_append_idx (lit rest : String) (n : Nat) (hn : n < lit.data.length) :
    (lit ++ rest).data[n]? = lit.data[n]? := by
  rw [String.data_append, List.getElem?_append, if_pos hn]

/-! ### The round-trip of single-quote escaping (claim C7 groundwork) -/

theorem sqlLiteralBody_esc (cs : List Char) :
    sqlLiteralBody (escSQL cs ++ [sqC]) = some cs := by
  induction cs with
  | nil => simp [escSQL, sqlLiteralBody]
  | cons c cs ih =>
    by_cases hc : c = sqC
    · subst hc
      simp only [escSQL, if_pos rfl, List.cons_append, List.append_assoc,
        List.nil_append]
      rw [sqlLiteralBody.eq_def]
      simp [ih]
    · simp only [escSQL, if_neg hc, List.cons_append, List.nil_append]
      rw [sqlLiteralBody.eq_def]
      simp only []
      rw [if_neg hc, ih]
      rfl

/-- C7: for every string `s`, `formatValue` yields a single-quoted SQL
literal that standard single-quote SQL literal parsing maps back to exactly
`s`: quote-doubling is inverted by the parse. -/
theorem formatValue_string_roundtrip (s : String) (cts : ColumnTypes)
    (tn cn : Option String) :
    sqlParseLiteral (formatValue cts (.str s) tn cn) = some s := by
  show sqlParseLiteral (sqS ++ (escSQ s ++ sqS)) = some s
  have hd : (sqS ++ (escSQ s ++ sqS)).data = sqC :: (escSQL s.data ++ [sqC]) := by
    simp [sqS, escSQ, String.data_append]
  unfold sqlParseLiteral
  rw [hd]
  simp [sqlLiteralBody_esc]

/-! ### Identifier quoting (claim C8 groundwork) -/

theorem count_escDQL (cs : List Char) :
    (escDQL cs).count dqC = 2 * cs.count dqC := by
  induction cs with
  | nil => simp [escDQL]
  | cons c cs ih =>
    by_cases hc : c = dqC
    · subst hc
      simp [escDQL, List.count_append, List.count_cons, ih]
      omega
    · simp [escDQL, hc, List.count_append, List.count_cons, ih]

/-- C8: `quoteIdentifier` is total and yields a string that begins and ends
with a double quote, and whose double-quote count is twice the input's plus
the two delimiters: every embedded double quote appears doubled. -/
theorem quoteIdentifier_shape (s : String) :
    (quoteIdentifier s).data.head? = some dqC ∧
    (quoteIdentifier s).data.getLast? = some dqC ∧
    (quoteIdentifier s).data.count dqC = 2 * s.data.count dqC + 2 := by
  refine ⟨rfl, ?_, ?_⟩
  · show (dqC :: (escDQL s.data ++ [dqC])).getLast? = some dqC
    rw [show dqC :: (escDQL s.data ++ [dqC]) = (dqC :: escDQL s.data) ++ [dqC] by
      simp]
    exact List.getLast?_concat _
  · show (dqC :: (escDQL s.data ++ [dqC])).count dqC = 2 * s.data.count dqC + 2
    simp [List.count_cons, List.count_append, count_escDQL]

/-- C6: `formatValue` returns exactly `NULL` for `null`, `NaN`, `Infinity`
and every other non-finite number, and returns the canonical decimal text of
every finite number. -/
theorem formatValue_null_and_numbers (cts : ColumnTypes) (tn cn : Option String) :
    formatValue cts .vnull tn cn = "NULL" ∧
    formatValue cts (.num .nan) tn cn = "NULL" ∧
    formatValue cts (.num .posInf) tn cn = "NULL" ∧
    formatValue cts (.num .negInf) tn cn = "NULL" ∧
    ∀ t : String, formatValue cts (.num (.finite t)) tn cn = t :=
  ⟨rfl, rfl, rfl, rfl, fun _ => rfl⟩

/-! ### Pagination (claim C1)

The loop issues one request per iteration.  A table of `n` rows makes
`n / 1000` full-page requests and always one final short-page request (for
`n` a multiple of 1000 that last page is empty), so the request count is
`n / 1000 + 1` for every `n` — also when `n` is an exact multiple of the
page size, where the claim expects `n / 1000`. -/

theorem extractLoop_spec (rows : List α) (offset : Nat) :
    extractLoop rows offset =
      (rows.drop offset, (rows.length - offset) / pageSize + 1) := by
  induction offset using extractLoop.induct rows with
  | case1 offset page h ih =>
    unfold page at h
    rw [extractLoop, dif_pos h, ih]
    have hge : pageSize ≤ rows.length - offset := by
      by_contra hlt
      push_neg at hlt
      simp only [serveRange, List.length_take, List.length_drop,
        Nat.min_eq_right (Nat.le_of_lt hlt)] at h
      omega
    have hpos : 0 < pageSize := by simp [pageSize]
    simp only [Prod.mk.injEq]
    refine ⟨?_, ?_⟩
    · have hdd : rows.drop (offset + pageSize) =
          (rows.drop offset).drop pageSize := by
        rw [List.drop_drop, Nat.add_comm]
      rw [hdd]
      exact List.take_append_drop pageSize (rows.drop offset)
    · rw [Nat.div_eq_sub_div hpos hge]
      have he : rows.length - (offset + pageSize) =
          rows.length - offset - pageSize := by omega
      rw [he]
  | case2 offset page h =>
    unfold page at h
    have hlt : rows.length - offset < pageSize := by
      by_contra hge
      push_neg at hge
      simp only [serveRange, List.length_take, List.length_drop,
        Nat.min_eq_left hge] at h
      exact h trivial
    rw [extractLoop, dif_neg h]
    simp only [Prod.mk.injEq]
    refine ⟨?_, ?_⟩
    · simp only [serveRange]
      apply List.take_of_length_le
      simp only [List.length_drop]
      omega
    · rw [Nat.div_eq_of_lt hlt]

/-- C1 (counterexample): a table of exactly 1000 rows (`k = 1`, `r = 0`) is
fetched with 2 page requests, not the `k = 1` the claim states: the full
first page forces one more request that returns the empty page. -/
theorem pagination_requests_counterexample :
    (extractTableData (List.replicate 1000 (0 : Nat))).2 = 2 ∧
    ¬ (extractTableData (List.replicate 1000 (0 : Nat))).2 = 1 := by
  have h : extractTableData (List.replicate 1000 (0 : Nat)) =
      (List.replicate 1000 (0 : Nat), 2) := by
    rw [extractTableData, extractLoop_spec]
    simp only [List.drop_zero, List.length_replicate, Nat.sub_zero, pageSize]
  rw [h]
  exact ⟨rfl, by decide⟩

/-- C1 (amended): for a table of exactly `k * 1000 + r` rows
(`0 <= r < 1000`) served consistently, `extractTableData` issues `k + 1`
page requests in every case — also when `r = 0`, where the final request
observes the short (empty) page — and returns exactly the `k * 1000 + r`
rows, concatenating the pages in fetch order. -/
theorem extractTableData_pagination {α : Type} (k r : Nat) (rows : List α)
    (hr : r < 1000) (hl : rows.length = k * 1000 + r) :
    (extractTableData rows).1 = rows ∧ (extractTableData rows).2 = k + 1 := by
  rw [extractTableData, extractLoop_spec]
  refine ⟨by simp, ?_⟩
  simp only [pageSize, Nat.sub_zero]
  omega

theorem extractTableData_pagination_witness :
    2 < 1000 ∧ ([5, 7] : List Nat).length = 0 * 1000 + 2 ∧
    ((extractTableData ([5, 7] : List Nat)).1 = [5, 7] ∧
     (extractTableData ([5, 7] : List Nat)).2 = 0 + 1) :=
  ⟨by decide, by decide,
    extractTableData_pagination 0 2 [5, 7] (by decide) (by decide)⟩

/-! ### Discovery (claim C2)

The restricted fallback path absorbs every RPC failure, but
`discoverTablesViaPg` only releases its connection in `finally` — it has no
`catch`, so a connect or query failure on the privileged path propagates out
of `discoverTables`. -/

/-- C2 (counterexample): with a database URL configured and a failing
privileged connection, `discoverTables` propagates the failure as an
exception instead of returning a (possibly empty) table list. -/
theorem discoverTables_throws_counterexample :
    discoverTables ⟨"u", "k", some "postgres"⟩
      (.connectFailure "connection refused") .throws =
      .error "connection refused" := rfl

/-- C2 (amended): when no (truthy) database URL is configured,
`discoverTables` never throws — it returns the restricted-path result, and
returns the empty sequence whenever the RPC throws or reports an error;
when a database URL is configured, connection and query failures on the
privileged path propagate as exceptions. -/
theorem discoverTables_error_handling (cfg : ExtractorConfig)
    (pg : PgOutcome) (rpc : RpcOutcome) (h : hasDatabaseUrl cfg = false) :
    discoverTables cfg pg rpc = .ok (discoverTablesViaSupabase rpc) ∧
    discoverTablesViaSupabase .throws = [] ∧
    (∀ e d, discoverTablesViaSupabase (.result d (some e)) = []) ∧
    (∀ cfg2 pg2 rpc2 e, hasDatabaseUrl cfg2 = true →
      (pg2 = .connectFailure e ∨ pg2 = .queryFailure e) →
      discoverTables cfg2 pg2 rpc2 = .error e) := by
  refine ⟨by simp [discoverTables, h], rfl, ?_, ?_⟩
  · intro e d
    cases d <;> rfl
  · intro cfg2 pg2 rpc2 e h2 hp
    rcases hp with hp | hp <;> subst hp <;> simp [discoverTables, h2,
      discoverTablesViaPg]

theorem discoverTables_error_handling_witness :
    hasDatabaseUrl ⟨"u", "k", none⟩ = false ∧
    discoverTables ⟨"u", "k", none⟩ (.success []) .throws =
      .ok (discoverTablesViaSupabase .throws) :=
  ⟨rfl, (discoverTables_error_handling ⟨"u", "k", none⟩ (.success []) .throws rfl).1⟩

/-! ### Per-table fault isolation (claim C4) -/

/-- C4: `extractAllData` is total (it cannot throw), and with distinct table
names every table is present in the returned mapping: a table whose fetch
succeeded keeps exactly its fetched rows, and a table whose fetch failed is
recorded with the empty row list, independently of the other tables. -/
theorem extractAllData_fault_isolation (fetch : String → Except String (List Row))
    (tables : List TableInfo) (hn : (tables.map TableInfo.name).Nodup)
    (t : TableInfo) (ht : t ∈ tables) :
    (∀ d, fetch t.name = .ok d →
      List.lookup t.name (extractAllData fetch tables) = some d) ∧
    (∀ e, fetch t.name = .error e →
      List.lookup t.name (extractAllData fetch tables) = some []) := by
  induction tables with
  | nil => cases ht
  | cons u rest ih =>
    simp only [List.map_cons, List.nodup_cons] at hn
    rcases List.mem_cons.mp ht with he | hm
    · subst he
      constructor
      · intro d hd
        simp [extractAllData, List.lookup, hd]
      · intro e he2
        simp [extractAllData, List.lookup, he2]
    · have hne : (t.name == u.name) = false := by
        rw [beq_eq_false_iff_ne]
        intro hcontra
        exact hn.1 (hcontra ▸ List.mem_map_of_mem TableInfo.name hm)
      have ih2 := ih hn.2 hm
      constructor
      · intro d hd
        simpa [extractAllData, List.lookup, hne] using ih2.1 d hd
      · intro e he2
        simpa [extractAllData, List.lookup, hne] using ih2.2 e he2

theorem extractAllData_fault_isolation_witness :
    (([⟨"a", "public"⟩, ⟨"b", "public"⟩, ⟨"c", "public"⟩] :
        List TableInfo).map TableInfo.name).Nodup ∧
    (⟨"b", "public"⟩ : TableInfo) ∈
      ([⟨"a", "public"⟩, ⟨"b", "public"⟩, ⟨"c", "public"⟩] : List TableInfo) ∧
    (∀ e, (fun n => if n = "b" then (Except.error "boom" : Except String (List Row))
            else .ok []) (TableInfo.name ⟨"b", "public"⟩) = .error e →
      List.lookup (TableInfo.name ⟨"b", "public"⟩)
        (extractAllData
          (fun n => if n = "b" then .error "boom" else .ok [])
          [⟨"a", "public"⟩, ⟨"b", "public"⟩, ⟨"c", "public"⟩]) = some []) :=
  ⟨by decide, by decide,
    (extractAllData_fault_isolation
      (fun n => if n = "b" then .error "boom" else .ok [])
      [⟨"a", "public"⟩, ⟨"b", "public"⟩, ⟨"c", "public"⟩]
      (by decide) ⟨"b", "public"⟩ (by decide)).2⟩

/-! ### Totality of the value formatter (claim C5) -/

theorem ne_empty_of_data_ne_nil (s : String) (h : s.data ≠ []) : s ≠ "" := by
  intro he
  exact h (by rw [he])

theorem append_ne_empty_left (a b : String) (ha : a.data ≠ []) : a ++ b ≠ "" := by
  apply ne_empty_of_data_ne_nil
  rw [String.data_append]
  intro hc
  exact ha (List.append_eq_nil.mp hc).1

theorem sqS_data_ne_nil : sqS.data ≠ [] := by
  intro h
  exact List.cons_ne_nil sqC [] h

/-- C5: `formatValue` is total and, for every supported value kind and any
hints, returns a non-empty string.  The only modelling hypothesis is the
runtime fact that the canonical decimal rendering of a finite JavaScript
number is never the empty string. -/
theorem formatValue_total_nonempty (cts : ColumnTypes) (v : JsValue)
    (tn cn : Option String)
    (h : ∀ t, v = JsValue.num (JsNumber.finite t) → t ≠ "") :
    formatValue cts v tn cn ≠ "" := by
  cases v with
  | vnull => simp [formatValue]
  | vundefined => simp [formatValue]
  | str s =>
    show sqS ++ (escSQ s ++ sqS) ≠ ""
    exact append_ne_empty_left _ _ sqS_data_ne_nil
  | boolean b =>
    cases b <;> simp [formatValue]
  | num n =>
    cases n with
    | nan => simp [formatValue]
    | posInf => simp [formatValue]
    | negInf => simp [formatValue]
    | finite t =>
      show t ≠ ""
      exact h t rfl
  | date iso =>
    show sqS ++ (iso ++ sqS) ≠ ""
    exact append_ne_empty_left _ _ sqS_data_ne_nil
  | obj fs =>
    show jsonbRender (.obj fs) ≠ ""
    rw [jsonbRender, jsonStringify]
    exact append_ne_empty_left _ _ (by
      rw [String.data_append]
      intro hc
      exact sqS_data_ne_nil (List.append_eq_nil.mp hc).1)
  | arr xs =>
    show formatValue cts (.arr xs) tn cn ≠ ""
    rw [formatValue]
    rcases hct : lookupColumnType cts tn cn with _ | ct
    · show jsonbRender (.arr xs) ≠ ""
      rw [jsonbRender, jsonStringify]
      exact append_ne_empty_left _ _ (by
        rw [String.data_append]
        intro hc
        exact sqS_data_ne_nil (List.append_eq_nil.mp hc).1)
    · simp only []
      by_cases hend : strEndsWith ct "[]" = true
      · rw [if_pos hend]
        exact append_ne_empty_left _ _ (by decide)
      · rw [if_neg hend]
        show jsonbRender (.arr xs) ≠ ""
        rw [jsonbRender, jsonStringify]
        exact append_ne_empty_left _ _ (by
          rw [String.data_append]
          intro hc
          exact sqS_data_ne_nil (List.append_eq_nil.mp hc).1)
  | exotic t =>
    show sqS ++ (escSQ t ++ sqS) ≠ ""
    exact append_ne_empty_left _ _ sqS_data_ne_nil

theorem formatValue_total_nonempty_witness :
    (∀ t, JsValue.str "x" = JsValue.num (JsNumber.finite t) → t ≠ "") ∧
    formatValue [] (JsValue.str "x") none none ≠ "" :=
  ⟨(fun _ hc => nomatch hc),
   formatValue_total_nonempty [] (JsValue.str "x") none none
     (fun _ hc => nomatch hc)⟩

/-! ### Array-typed column rendering (claim C3) -/

/-- C3: when the column-type map entry for the hinted table/column is the
declared array type `text[]`, `formatValue` renders the runtime array value
`["a","b"]` as the array-literal constructor `ARRAY['a','b']::text[]`
(spelled below with `sqS`, the one-character single-quote string). -/
theorem formatValue_array_text (cts : ColumnTypes) (tn cn : String)
    (h : lookupColumnType cts (some tn) (some cn) = some "text[]") :
    formatValue cts (.arr [.str "a", .str "b"]) (some tn) (some cn) =
      "ARRAY[" ++ sqS ++ "a" ++ sqS ++ "," ++ sqS ++ "b" ++ sqS ++ "]::text[]" := by
  rw [formatValue, h]
  simp only []
  rw [if_pos (by decide)]
  decide

theorem formatValue_array_text_witness :
    lookupColumnType
      [("tbl", fetchColumnTypes ⟨"u", "k", some "postgres"⟩ [("col", "text[]")])]
      (some "tbl") (some "col") = some "text[]" ∧
    formatValue
      [("tbl", fetchColumnTypes ⟨"u", "k", some "postgres"⟩ [("col", "text[]")])]
      (.arr [.str "a", .str "b"]) (some "tbl") (some "col") =
      "ARRAY[" ++ sqS ++ "a" ++ sqS ++ "," ++ sqS ++ "b" ++ sqS ++ "]::text[]" :=
  ⟨by decide,
   formatValue_array_text
     [("tbl", fetchColumnTypes ⟨"u", "k", some "postgres"⟩ [("col", "text[]")])]
     "tbl" "col" (by decide)⟩

/-! ### Quoted identifiers determine statement heads (claims C9, C10)

`escDQL` output contains double quotes only in adjacent pairs, so the first
position where a double quote is followed by a non-quote closes the quoted
identifier.  Hence two quoted identifiers followed by non-quote delimiters
can only align when the identifiers coincide. -/

theorem escDQL_quote_split (u : List Char) : ∀ (v x y : List Char),
    x.head? ≠ some dqC → y.head? ≠ some dqC →
    escDQL u ++ dqC :: x = escDQL v ++ dqC :: y → u = v ∧ x = y := by
  induction u with
  | nil =>
    intro v x y hx hy h
    cases v with
    | nil =>
      simp only [escDQL, List.nil_append, List.cons.injEq] at h
      exact ⟨rfl, h.2⟩
    | cons d vs =>
      by_cases hd : d = dqC
      · subst hd
        simp [escDQL] at h
        exact absurd (by rw [h]; rfl) hx
      · simp [escDQL, hd] at h
        exact absurd h.1.symm hd
  | cons c us ih =>
    intro v x y hx hy h
    cases v with
    | nil =>
      by_cases hc : c = dqC
      · subst hc
        simp [escDQL] at h
        exact absurd (by rw [← h]; rfl) hy
      · simp [escDQL, hc] at h
    | cons d vs =>
      by_cases hc : c = dqC <;> by_cases hd : d = dqC
      · subst hc; subst hd
        simp [escDQL] at h
        obtain ⟨hu, hxy⟩ := ih vs x y hx hy h
        exact ⟨by rw [hu], hxy⟩
      · subst hc
        simp [escDQL, hd] at h
        exact absurd h.1.symm hd
      · subst hd
        simp [escDQL, hc] at h
      · simp [escDQL, hc, hd] at h
        obtain ⟨hcd, hrest⟩ := h
        obtain ⟨hu, hxy⟩ := ih vs x y hx hy hrest
        exact ⟨by rw [hcd, hu], hxy⟩

theorem head_ne_dqC (c : Char) (l : List Char) (hc : c ≠ dqC) :
    (c :: l).head? ≠ some dqC := by
  simp [hc]

/-- A chunk that begins with the INSERT head of table `t` can only be an
INSERT emitted for a table with the same quoted schema and name. -/
theorem insertLine_sig_inj (cts : ColumnTypes) (u t : TableInfo) (row : Row)
    (h : beginsWith (insertLine cts u row) (insertSig t)) :
    u.name = t.name ∧ u.schema = t.schema := by
  obtain ⟨z, hz⟩ := h
  simp only [insertLine, insertSig, quoteIdentifier, String.data_append,
    data_mk, List.append_assoc, List.cons_append, List.singleton_append,
    List.nil_append, List.cons.injEq, true_and] at hz
  obtain ⟨hs, htl⟩ :=
    escDQL_quote_split _ _ _ _ (head_ne_dqC _ _ (by decide))
      (head_ne_dqC _ _ (by decide)) hz
  simp only [List.cons.injEq, true_and] at htl
  obtain ⟨hn, -⟩ :=
    escDQL_quote_split _ _ _ _ (head_ne_dqC _ _ (by decide))
      (head_ne_dqC _ _ (by decide)) htl
  exact ⟨String.ext hn, String.ext hs⟩

/-! ### Heads and distinguishing indices of the generator's chunks -/

theorem not_beginsWith_head_ne (c p : String) (a b : Char)
    (hc : c.data[0]? = some a) (hp : p.data[0]? = some b) (hab : a ≠ b)
    (hplen : 0 < p.data.length) : ¬ beginsWith c p := by
  intro h
  have h0 := beginsWith_getElem h hplen
  rw [hc, hp] at h0
  exact hab (Option.some.inj h0)

theorem insertSig_len_pos (t : TableInfo) : 0 < (insertSig t).data.length := by
  rw [insertSig, String.data_append, List.length_append]
  have h12 : ("INSERT INTO ").data.length = 12 := by decide
  omega

theorem insertSig_head (t : TableInfo) : (insertSig t).data[0]? = some 'I' := by
  rw [insertSig, lit_append_idx _ _ 0 (by decide)]
  decide

theorem noDataLine_head (nm : String) : (noDataLine nm).data[0]? = some '-' := by
  rw [noDataLine, lit_append_idx _ _ 0 (by decide)]
  decide

theorem noDataLine_idx3 (nm : String) : (noDataLine nm).data[3]? = some 'N' := by
  rw [noDataLine, lit_append_idx _ _ 3 (by decide)]
  decide

theorem dropLine_head (t : TableInfo) : (dropLine t).data[0]? = some 'D' := by
  rw [dropLine, lit_append_idx _ _ 0 (by decide)]
  decide

theorem tableHeaderLine_idx3 (t : TableInfo) :
    (tableHeaderLine t).data[3]? = some 'T' := by
  rw [tableHeaderLine, lit_append_idx _ _ 3 (by decide)]
  decide

theorem tableHeaderLine_head (t : TableInfo) :
    (tableHeaderLine t).data[0]? = some '-' := by
  rw [tableHeaderLine, lit_append_idx _ _ 0 (by decide)]
  decide

theorem dataCommentLine_head (nm : String) :
    (dataCommentLine nm).data[0]? = some '-' := by
  rw [dataCommentLine, lit_append_idx _ _ 0 (by decide)]
  decide

theorem dataCommentLine_idx3 (nm : String) :
    (dataCommentLine nm).data[3]? = some 'D' := by
  rw [dataCommentLine, lit_append_idx _ _ 3 (by decide)]
  decide

theorem rowsCommentLine_head (k : Nat) :
    (rowsCommentLine k).data[0]? = some '-' := by
  rw [rowsCommentLine, lit_append_idx _ _ 0 (by decide)]
  decide

theorem rowsCommentLine_idx3 (k : Nat) :
    (rowsCommentLine k).data[3]? = some 'R' := by
  rw [rowsCommentLine, lit_append_idx _ _ 3 (by decide)]
  decide

theorem insertLine_head (cts : ColumnTypes) (t : TableInfo) (row : Row) :
    (insertLine cts t row).data[0]? = some 'I' := by
  rw [insertLine, lit_append_idx _ _ 0 (insertSig_len_pos t)]
  exact insertSig_head t

/-- The chunks a table can contribute, by shape; the drop-mode chunks appear
only when `includeDropStatements` is set, and INSERT chunks only come from a
nonempty dataset found under the table's name. -/
theorem mem_tableChunks {cts : ColumnTypes} {data : List (String × List Row)}
    {b : Bool} {t : TableInfo} {c : String}
    (hc : c ∈ tableChunks cts data b t) :
    c = noDataLine t.name ∨
    (b = true ∧ (c = dropLine t ∨ c = tableHeaderLine t)) ∨
    c = dataCommentLine t.name ∨
    (∃ k, c = rowsCommentLine k) ∨
    (∃ rows row, List.lookup t.name data = some rows ∧ rows ≠ [] ∧
      row ∈ rows ∧ c = insertLine cts t row) ∨
    c = "\n" := by
  unfold tableChunks at hc
  rcases hlk : List.lookup t.name data with _ | rows <;> rw [hlk] at hc <;>
    simp only [] at hc
  · simp at hc
    exact Or.inl hc
  · by_cases hre : rows.isEmpty
    · rw [if_pos hre] at hc
      simp at hc
      exact Or.inl hc
    · rw [if_neg hre] at hc
      have hrne : rows ≠ [] := by
        intro hcontra
        rw [hcontra] at hre
        exact hre rfl
      cases b with
      | false =>
        simp at hc
        rcases hc with hc | hc | ⟨row, hrow, hceq⟩ | hc
        · exact Or.inr (Or.inr (Or.inl hc))
        · exact Or.inr (Or.inr (Or.inr (Or.inl ⟨rows.length, hc⟩)))
        · exact Or.inr (Or.inr (Or.inr (Or.inr (Or.inl
            ⟨rows, row, rfl, hrne, hrow, hceq.symm⟩))))
        · exact Or.inr (Or.inr (Or.inr (Or.inr (Or.inr hc))))
      | true =>
        simp at hc
        rcases hc with hc | hc | hc | hc | ⟨row, hrow, hceq⟩ | hc
        · exact Or.inr (Or.inl ⟨rfl, Or.inl hc⟩)
        · exact Or.inr (Or.inl ⟨rfl, Or.inr hc⟩)
        · exact Or.inr (Or.inr (Or.inl hc))
        · exact Or.inr (Or.inr (Or.inr (Or.inl ⟨rows.length, hc⟩)))
        · exact Or.inr (Or.inr (Or.inr (Or.inr (Or.inl
            ⟨rows, row, rfl, hrne, hrow, hceq.symm⟩))))
        · exact Or.inr (Or.inr (Or.inr (Or.inr (Or.inr hc))))

theorem noDataLine_inj {a b : String} (h : noDataLine a = noDataLine b) :
    a = b := by
  have hd := congrArg String.data h
  simp only [noDataLine, String.data_append] at hd
  have h1 := List.append_cancel_left hd
  have h2 := List.append_cancel_right h1
  exact String.ext h2

theorem newline_head : ("\n").data[0]? = some '\n' := by decide

/-- A block of a table whose name differs contributes no occurrence of the
`-- No data` comment chunk of `nm`. -/
theorem count_noData_tableChunks_ne (cts : ColumnTypes)
    (data : List (String × List Row)) (b : Bool) (u : TableInfo) (nm : String)
    (hne : u.name ≠ nm) :
    (tableChunks cts data b u).count (noDataLine nm) = 0 := by
  rw [List.count_eq_zero]
  intro hmem
  rcases mem_tableChunks hmem with hc | ⟨-, hc | hc⟩ | hc | ⟨k, hc⟩ |
    ⟨rows, row, -, -, -, hc⟩ | hc
  · exact hne (noDataLine_inj hc).symm
  · exact str_ne_of_idx 0 (by rw [noDataLine_head, dropLine_head]; decide) hc
  · exact str_ne_of_idx 3
      (by rw [noDataLine_idx3, tableHeaderLine_idx3]; decide) hc
  · exact str_ne_of_idx 3
      (by rw [noDataLine_idx3, dataCommentLine_idx3]; decide) hc
  · exact str_ne_of_idx 3
      (by rw [noDataLine_idx3, rowsCommentLine_idx3]; decide) hc
  · exact str_ne_of_idx 0 (by rw [noDataLine_head, insertLine_head]; decide) hc
  · exact str_ne_of_idx 0 (by rw [noDataLine_head, newline_head]; decide) hc

/-- The block of a table whose dataset is absent or empty is exactly the one
`-- No data` comment chunk. -/
theorem tableChunks_empty (cts : ColumnTypes) (data : List (String × List Row))
    (b : Bool) (t : TableInfo)
    (he : List.lookup t.name data = none ∨ List.lookup t.name data = some []) :
    tableChunks cts data b t = [noDataLine t.name] := by
  rcases he with he | he <;> unfold tableChunks <;> rw [he]
  rfl

theorem count_noData_genInsert_zero (cts : ColumnTypes)
    (data : List (String × List Row)) (b : Bool) (nm : String) :
    ∀ (ts : List TableInfo), (∀ u ∈ ts, u.name ≠ nm) →
    (genInsertChunks cts ts data b).count (noDataLine nm) = 0 := by
  intro ts
  induction ts with
  | nil => intro _; rfl
  | cons u rest ih =>
    intro hall
    show (tableChunks cts data b u ++ genInsertChunks cts rest data b).count
      (noDataLine nm) = 0
    rw [List.count_append,
      count_noData_tableChunks_ne cts data b u nm (hall u (.head rest)),
      ih (fun v hv => hall v (.tail u hv))]

theorem count_noData_genInsert_one (cts : ColumnTypes)
    (data : List (String × List Row)) (b : Bool) :
    ∀ (tables : List TableInfo) (t : TableInfo),
    (tables.map TableInfo.name).Nodup → t ∈ tables →
    (List.lookup t.name data = none ∨ List.lookup t.name data = some []) →
    (genInsertChunks cts tables data b).count (noDataLine t.name) = 1 := by
  intro tables
  induction tables with
  | nil => intro t _ ht _; cases ht
  | cons u rest ih =>
    intro t hn ht he
    simp only [List.map_cons, List.nodup_cons] at hn
    show (tableChunks cts data b u ++ genInsertChunks cts rest data b).count
      (noDataLine t.name) = 1
    rw [List.count_append]
    rcases List.mem_cons.mp ht with heq | hmem
    · subst heq
      rw [tableChunks_empty cts data b t he]
      rw [count_noData_genInsert_zero cts data b t.name rest
        (fun v hv hveq => hn.1 (hveq ▸ List.mem_map_of_mem TableInfo.name hv))]
      simp
    · have hune : u.name ≠ t.name := fun hcontra =>
        hn.1 (hcontra ▸ List.mem_map_of_mem TableInfo.name hmem)
      rw [count_noData_tableChunks_ne cts data b u t.name hune,
        ih t hn.2 hmem he]

theorem genInsert_no_insert_for_empty (cts : ColumnTypes)
    (data : List (String × List Row)) (b : Bool) (tables : List TableInfo)
    (t : TableInfo)
    (he : List.lookup t.name data = none ∨ List.lookup t.name data = some []) :
    ∀ c ∈ genInsertChunks cts tables data b, ¬ beginsWith c (insertSig t) := by
  intro c hc hbw
  obtain ⟨u, hu, hcu⟩ := List.mem_flatMap.mp hc
  rcases mem_tableChunks hcu with hceq | ⟨-, hceq | hceq⟩ | hceq | ⟨k, hceq⟩ |
    ⟨rows, row, hlk, hrne, hrow, hceq⟩ | hceq
  · subst hceq
    exact not_beginsWith_head_ne _ _ '-' 'I' (noDataLine_head u.name)
      (insertSig_head t) (by decide) (insertSig_len_pos t) hbw
  · subst hceq
    exact not_beginsWith_head_ne _ _ 'D' 'I' (dropLine_head u)
      (insertSig_head t) (by decide) (insertSig_len_pos t) hbw
  · subst hceq
    exact not_beginsWith_head_ne _ _ '-' 'I' (tableHeaderLine_head u)
      (insertSig_head t) (by decide) (insertSig_len_pos t) hbw
  · subst hceq
    exact not_beginsWith_head_ne _ _ '-' 'I' (dataCommentLine_head u.name)
      (insertSig_head t) (by decide) (insertSig_len_pos t) hbw
  · subst hceq
    exact not_beginsWith_head_ne _ _ '-' 'I' (rowsCommentLine_head k)
      (insertSig_head t) (by decide) (insertSig_len_pos t) hbw
  · subst hceq
    obtain ⟨hname, -⟩ := insertLine_sig_inj cts u t row hbw
    rw [hname] at hlk
    rcases he with he2 | he2 <;> rw [he2] at hlk
    · cases hlk
    · exact hrne (Option.some.inj hlk).symm
  · subst hceq
    exact not_beginsWith_head_ne _ _ '\n' 'I' newline_head
      (insertSig_head t) (by decide) (insertSig_len_pos t) hbw

/-- C9: for a table in the list whose dataset is absent or empty, the
generated document contains exactly one `-- No data` comment chunk for that
table and no chunk that is an INSERT statement for it (no chunk begins with
`INSERT INTO <quoted schema>.<quoted table> (`). -/
theorem generateInserts_empty_table (cts : ColumnTypes)
    (tables : List TableInfo) (data : List (String × List Row)) (b : Bool)
    (t : TableInfo) (hn : (tables.map TableInfo.name).Nodup) (ht : t ∈ tables)
    (he : List.lookup t.name data = none ∨ List.lookup t.name data = some []) :
    (genInsertChunks cts tables data b).count (noDataLine t.name) = 1 ∧
    ∀ c ∈ genInsertChunks cts tables data b, ¬ beginsWith c (insertSig t) :=
  ⟨count_noData_genInsert_one cts data b tables t hn ht he,
   genInsert_no_insert_for_empty cts data b tables t he⟩

theorem generateInserts_empty_table_witness :
    (([⟨"a", "public"⟩, ⟨"b", "public"⟩] :
        List TableInfo).map TableInfo.name).Nodup ∧
    (⟨"b", "public"⟩ : TableInfo) ∈
      ([⟨"a", "public"⟩, ⟨"b", "public"⟩] : List TableInfo) ∧
    ((genInsertChunks [] [⟨"a", "public"⟩, ⟨"b", "public"⟩]
        [("a", [[("id", JsValue.boolean true)]])] false).count
        (noDataLine (TableInfo.name ⟨"b", "public"⟩)) = 1 ∧
      ∀ c ∈ genInsertChunks [] [⟨"a", "public"⟩, ⟨"b", "public"⟩]
          [("a", [[("id", JsValue.boolean true)]])] false,
        ¬ beginsWith c (insertSig ⟨"b", "public"⟩)) :=
  ⟨by decide, by decide,
   generateInserts_empty_table [] [⟨"a", "public"⟩, ⟨"b", "public"⟩]
     [("a", [[("id", JsValue.boolean true)]])] false ⟨"b", "public"⟩
     (by decide) (by decide) (Or.inl rfl)⟩

/-! ### No DROP TABLE in the reconstruction document (claim C10) -/

theorem genChunks_no_drop_head (cts : ColumnTypes) (tables : List TableInfo)
    (data : List (String × List Row)) :
    ∀ c ∈ genInsertChunks cts tables data false,
      ¬ beginsWith c "DROP TABLE" := by
  intro c hc hbw
  have hdt0 : ("DROP TABLE").data[0]? = some 'D' := by decide
  have hdtlen : 0 < ("DROP TABLE").data.length := by decide
  obtain ⟨u, hu, hcu⟩ := List.mem_flatMap.mp hc
  rcases mem_tableChunks hcu with hceq | ⟨hb, -⟩ | hceq | ⟨k, hceq⟩ |
    ⟨rows, row, -, -, -, hceq⟩ | hceq
  · subst hceq
    exact not_beginsWith_head_ne _ _ '-' 'D' (noDataLine_head u.name)
      hdt0 (by decide) hdtlen hbw
  · cases hb
  · subst hceq
    exact not_beginsWith_head_ne _ _ '-' 'D' (dataCommentLine_head u.name)
      hdt0 (by decide) hdtlen hbw
  · subst hceq
    exact not_beginsWith_head_ne _ _ '-' 'D' (rowsCommentLine_head k)
      hdt0 (by decide) hdtlen hbw
  · subst hceq
    exact not_beginsWith_head_ne _ _ 'I' 'D' (insertLine_head cts u row)
      hdt0 (by decide) hdtlen hbw
  · subst hceq
    exact not_beginsWith_head_ne _ _ '\n' 'D' newline_head
      hdt0 (by decide) hdtlen hbw

/-- C10: no chunk of the reconstruction document is a `DROP TABLE`
statement: `generateInsertStatements` emits its `DROP TABLE IF EXISTS ...
CASCADE` guard only when `includeDropStatements` is true, that parameter
defaults to false, and `generateReconstructionSQL` calls it without the
parameter.  The only external text is the schema DDL fetched in privileged
mode, assumed (hypothesis) not to start with `DROP TABLE` — `extractSchema`
always starts it with a `-- Database Schema` comment. -/
theorem reconstruction_no_drop_table (cfg : ExtractorConfig)
    (ts schemaSQL : String) (cts : ColumnTypes) (tables : List TableInfo)
    (data : List (String × List Row))
    (hs : hasDatabaseUrl cfg = true → ¬ beginsWith schemaSQL "DROP TABLE") :
    ∀ c ∈ reconChunks cfg ts schemaSQL cts tables data,
      ¬ beginsWith c "DROP TABLE" := by
  intro c hc
  have hdt0 : ("DROP TABLE").data[0]? = some 'D' := by decide
  have hdtlen : 0 < ("DROP TABLE").data.length := by decide
  unfold reconChunks at hc
  simp only [List.append_assoc, List.mem_append, List.mem_cons,
    List.not_mem_nil, or_false] at hc
  rcases hc with (hc | hc | hc | hc | hc) | hc | hc | (hc | hc)
  · subst hc
    exact not_beginsWith_head_ne _ _ '-' 'D' (by decide) hdt0 (by decide) hdtlen
  · subst hc
    exact not_beginsWith_head_ne _ _ '-' 'D'
      (by rw [lit_append_idx _ _ 0 (by decide)]; decide) hdt0 (by decide) hdtlen
  · subst hc
    exact not_beginsWith_head_ne _ _ '-' 'D' (by decide) hdt0 (by decide) hdtlen
  · subst hc
    exact not_beginsWith_head_ne _ _ '-' 'D' (by decide) hdt0 (by decide) hdtlen
  · subst hc
    exact not_beginsWith_head_ne _ _ '-' 'D' (by decide) hdt0 (by decide) hdtlen
  · by_cases hdb : hasDatabaseUrl cfg
    · rw [if_pos hdb] at hc
      simp only [List.mem_cons, List.not_mem_nil, or_false] at hc
      subst hc
      exact hs hdb
    · rw [if_neg hdb] at hc
      simp only [List.mem_cons, List.not_mem_nil, or_false] at hc
      rcases hc with hc | hc <;> subst hc
      · exact not_beginsWith_head_ne _ _ '-' 'D' (by decide) hdt0
          (by decide) hdtlen
      · exact not_beginsWith_head_ne _ _ '-' 'D' (by decide) hdt0
          (by decide) hdtlen
  · exact genChunks_no_drop_head cts tables data c hc
  · subst hc
    exact not_beginsWith_head_ne _ _ '\n' 'D' (by decide) hdt0
      (by decide) hdtlen
  · subst hc
    exact not_beginsWith_head_ne _ _ '-' 'D' (by decide) hdt0
      (by decide) hdtlen

theorem reconstruction_no_drop_table_witness :
    (hasDatabaseUrl ⟨"u", "k", none⟩ = true →
      ¬ beginsWith "" "DROP TABLE") ∧
    ("-- Database Reconstruction Script\n" ∈
      reconChunks ⟨"u", "k", none⟩ "2024-01-01T00:00:00.000Z" "" []
        [⟨"a", "public"⟩] [] ∧
     ¬ beginsWith "-- Database Reconstruction Script\n" "DROP TABLE") :=
  ⟨(fun hcontra => nomatch hcontra),
   by
    refine ⟨by decide, ?_⟩
    exact reconstruction_no_drop_table ⟨"u", "k", none⟩
      "2024-01-01T00:00:00.000Z" "" [] [⟨"a", "public"⟩] []
      (fun hcontra => nomatch hcontra)
      "-- Database Reconstruction Script\n" (by decide)⟩
